import Mathlib

/-!
Formal model of the menu item store of a small restaurant-menu mobile
application.  The authoritative screen logic lives in `app/addMenu.tsx`
(validation, item construction, removal, persistence) and in the home
screen (category filtering and per-category average prices); persistence
is a single AsyncStorage key holding a JSON-serialized array of items.

Text is modelled as `List Char`; JavaScript numbers are modelled as
exact rationals `ℚ` (the model has no NaN/Infinity values: `parseFloat`
returns `none` where JavaScript returns NaN, and exponent forms and the
`Infinity` literal are outside the modelled input fragment).  The
persisted blob is modelled at parse-result granularity: absent,
present-but-unparsable (`JSON.parse` throws), or a parsed JSON value.
-/

namespace MenuStore

/-- Text values of the program: a string as a list of characters. -/
abbrev Str := List Char

/-- Model of JavaScript `String.prototype.trim`: drop leading and
trailing whitespace. -/
def trimChars (s : Str) : Str :=
  ((s.dropWhile Char.isWhitespace).reverse.dropWhile Char.isWhitespace).reverse

/-- Numeric value of a decimal digit character. -/
def digitVal (c : Char) : Nat := c.toNat - 48

/-- Value of a list of decimal digit characters read left to right. -/
def digitsToNat (ds : Str) : Nat := ds.foldl (fun a c => 10 * a + digitVal c) 0

/-- Model of JavaScript `parseFloat` on plain decimal numerals: skip
leading whitespace, read an optional sign and then a decimal-literal
prefix (`digits`, `digits.digits`, `digits.` or `.digits`), ignoring any
trailing characters.  `none` models NaN (no digit found).  Exponent
forms and the `Infinity` literal are outside the modelled fragment. -/
def parseFloat (s : Str) : Option ℚ :=
  let s1 := s.dropWhile Char.isWhitespace
  let sgn : ℤ := if s1.head? = some '-' then -1 else 1
  let s2 := if s1.head? = some '-' ∨ s1.head? = some '+' then s1.tail else s1
  let intDs := s2.takeWhile Char.isDigit
  let rest := s2.dropWhile Char.isDigit
  let fracDs := if rest.head? = some '.' then rest.tail.takeWhile Char.isDigit else []
  if intDs.isEmpty && fracDs.isEmpty then none
  else some (Rat.divInt (sgn * ((digitsToNat intDs * 10 ^ fracDs.length + digitsToNat fracDs : Nat) : ℤ)) ((10 ^ fracDs.length : Nat) : ℤ))

/-- Decimal digits of `n` in little-endian order, with explicit fuel so
that the recursion is structural; `fuel = n + 1` is always enough. -/
def natDigitsRev (fuel n : Nat) : List Char :=
  match fuel with
  | 0 => []
  | fuel' + 1 =>
    if n < 10 then [Nat.digitChar n]
    else Nat.digitChar (n % 10) :: natDigitsRev fuel' (n / 10)

/-- Model of JavaScript `Number.prototype.toString` on naturals
(used for `Date.now().toString()` ids): usual decimal notation. -/
def natToStr (n : Nat) : Str := (natDigitsRev (n + 1) n).reverse

/-- Two-digit zero-padded rendering of `n % 100`. -/
def pad2 (n : Nat) : Str := [Nat.digitChar (n / 10 % 10), Nat.digitChar (n % 10)]

/-- Rounded numerator for `toFixed(2)`: `⌊100·|q| + 1/2⌋`, computed
directly from the reduced fraction `q.num / q.den`. -/
def round100 (q : ℚ) : Nat := (200 * q.num.natAbs + q.den) / (2 * q.den)

/-- Model of JavaScript `Number.prototype.toFixed(2)` on the modelled
(finite, exact rational) numbers: round `|q|` to the nearest multiple of
1/100, ties away from zero, and render with a sign, an integer part and
exactly two fractional digits. -/
def toFixed2 (q : ℚ) : Str :=
  (if q < 0 then ['-'] else []) ++ natToStr (round100 q / 100) ++ '.' :: pad2 (round100 q % 100)

/-- Drop one leading minus sign, if any. -/
def stripMinus (s : Str) : Str :=
  match s with
  | [] => []
  | c :: r => if c = '-' then r else c :: r

/-- Core of the two-decimal format check, on a reversed string: the last
three characters are digit, digit, dot, and before them comes a
non-empty run of digits. -/
def twoDecCore : Str → Bool
  | b :: a :: d :: rest => (d == '.') && a.isDigit && b.isDigit && !rest.isEmpty && rest.all Char.isDigit
  | _ => false

/-- A string is in two-decimal format when, after an optional minus
sign, it consists of one or more digits, a dot, and exactly two
digits. -/
def isTwoDecFormat (s : Str) : Bool := twoDecCore (stripMinus s).reverse

/-- A menu item as constructed by `addItem` in `addMenu.tsx`: the object
literal `{ id, category, dishName, description, price }`, every field a
string. -/
structure MenuItem where
  id : Str
  category : Str
  dishName : Str
  description : Str
  price : Str
deriving DecidableEq

/-- JSON values, for the persisted blob (`JSON.stringify`/`JSON.parse`
operate on these; the stored text itself is abstracted away since
`JSON.parse ∘ JSON.stringify` is the identity on these values). -/
inductive Json where
  | null
  | bool (b : Bool)
  | num (q : ℚ)
  | str (s : Str)
  | arr (elems : List Json)
  | obj (fields : List (Str × Json))

/-- Contents of the AsyncStorage key `@menu_items`, at parse-result
granularity: absent (`getItem` returns null, or the empty string, which
is falsy), present but unparsable (`JSON.parse` throws), or a parsed
JSON value. -/
inductive Blob where
  | absent
  | malformed
  | parsed (j : Json)

def idKey : Str := ['i', 'd']

def categoryKey : Str := ['c', 'a', 't', 'e', 'g', 'o', 'r', 'y']

def dishNameKey : Str := ['d', 'i', 's', 'h', 'N', 'a', 'm', 'e']

def descriptionKey : Str := ['d', 'e', 's', 'c', 'r', 'i', 'p', 't', 'i', 'o', 'n']

def priceKey : Str := ['p', 'r', 'i', 'c', 'e']

/-- JSON encoding of one menu item, field order as in the object literal
built by `addItem`. -/
def encodeItem (it : MenuItem) : Json :=
  Json.obj [(idKey, Json.str it.id), (categoryKey, Json.str it.category),
    (dishNameKey, Json.str it.dishName), (descriptionKey, Json.str it.description),
    (priceKey, Json.str it.price)]

/-- JSON encoding of the whole collection: `JSON.stringify(items)`
produces the serialization of this array value. -/
def encodeItems (l : List MenuItem) : Json := Json.arr (l.map encodeItem)

/-- Specification-side decoder for a single item record (the code itself
performs no shape validation; this is used to state what a well-shaped
record is). -/
def itemOfJson : Json → Option MenuItem
  | Json.obj [(k1, Json.str i), (k2, Json.str c), (k3, Json.str n), (k4, Json.str d), (k5, Json.str p)] =>
    if k1 = idKey ∧ k2 = categoryKey ∧ k3 = dishNameKey ∧ k4 = descriptionKey ∧ k5 = priceKey then
      some { id := i, category := c, dishName := n, description := d, price := p }
    else none
  | _ => none

/-- Specification-side decoder for a list of item records. -/
def itemsOfJsonList : List Json → Option (List MenuItem)
  | [] => some []
  | j :: rest =>
    match itemOfJson j, itemsOfJsonList rest with
    | some it, some l => some (it :: l)
    | _, _ => none

/-- Specification-side decoder for a persisted collection value. -/
def decodeItems : Json → Option (List MenuItem)
  | Json.arr js => itemsOfJsonList js
  | _ => none

/-- State of the add-menu screen that the store operations touch: the
item collection, the user-feedback messages, and the persisted blob
under the `@menu_items` key. -/
structure AddMenuState where
  menuItems : List MenuItem
  error : Str
  success : Str
  storage : Blob

/-- Initial state: `useState([])`, empty messages, nothing persisted. -/
def initState : AddMenuState :=
  { menuItems := [], error := [], success := [], storage := Blob.absent }

def errMissing : Str := "Please fill in name, description and price.".data

def errInvalid : Str := "Please enter a valid price.".data

def successMsg : Str := "Item added successfully".data

/-- Sentinel shown for a category with no items (the em-dash literal in
`computeAverages`). -/
def emDash : Str := ['—']

/-- Model of `addItem` in `addMenu.tsx` (lines 70-107): validate the
three fields (missing-fields check first, then `parseFloat` NaN /
negativity check), construct the new item with a `Date.now().toString()`
id (the current clock value is the `now` argument), trimmed name and
description and a `toFixed(2)` price, append it, and persist the new
collection via `saveItems`.  On validation failure only the feedback
messages change. -/
def addItem (st : AddMenuState) (category dishName description price : Str) (now : Nat) : AddMenuState :=
  if (trimChars dishName).isEmpty || (trimChars description).isEmpty || (trimChars price).isEmpty then
    { st with error := errMissing, success := [] }
  else
    match parseFloat price with
    | none => { st with error := errInvalid, success := [] }
    | some q =>
      if q < 0 then
        { st with error := errInvalid, success := [] }
      else
        let next := st.menuItems ++
          [{ id := natToStr now, category := category, dishName := trimChars dishName,
             description := trimChars description, price := toFixed2 q }]
        { st with menuItems := next, storage := Blob.parsed (encodeItems next),
                  error := [], success := successMsg }

/-- Model of `removeItem` in `addMenu.tsx` (lines 112-118): keep every
item whose `id` differs from the argument, and persist the resulting
collection via `saveItems` (unconditionally). -/
def removeItem (st : AddMenuState) (id : Str) : AddMenuState :=
  let next := st.menuItems.filter (fun item => item.id != id)
  { st with menuItems := next, storage := Blob.parsed (encodeItems next) }

/-- Model of `filteredItems` (the `itemsByCategory` read): the items of
the collection whose `category` equals the selected one, in order. -/
def filteredItems (menuItems : List MenuItem) (category : Str) : List MenuItem :=
  menuItems.filter (fun item => item.category == category)

/-- Model of the per-category body of `computeAverages` on the home
screen: an em-dash for an empty category, otherwise
`R` ++ `(sum / count).toFixed(2)` where each item contributes
`parseFloat(price) || 0` (an unparsable price is coerced to 0). -/
def computeAverages (menuItems : List MenuItem) (cat : Str) : Str :=
  let items := menuItems.filter (fun i => i.category == cat)
  if items.length = 0 then emDash
  else
    let sum : ℚ := items.foldl (fun s it => s + ((parseFloat it.price).getD 0)) 0
    'R' :: toFixed2 (sum / (items.length : ℚ))

/-- The in-memory collection value at component start: `useState([])`. -/
def jsonInit : Json := Json.arr []

/-- Model of the load effect (`loadItems` / the mount-time `load`):
`const raw = await AsyncStorage.getItem(KEY); if (raw)
setMenuItems(JSON.parse(raw))`, wrapped in try/catch.  An absent (or
empty, hence falsy) blob leaves the current collection in place; an
unparsable blob throws inside the try and is caught, leaving the current
collection in place; a parsable blob is installed verbatim, with no
shape validation. -/
def loadItems (blob : Blob) (current : Json) : Json :=
  match blob with
  | Blob.absent => current
  | Blob.malformed => current
  | Blob.parsed j => j

/-- Model of `saveItems`: the blob after persisting `items` is the
serialization of the item array (parsable back to that very value). -/
def saveBlob (items : List MenuItem) : Blob := Blob.parsed (encodeItems items)

/-- Extended model of JavaScript number results for the aggregate read:
a finite exact rational, positive or negative Infinity, or NaN.  The
finite-domain `parseFloat` model above is enough for the validation
paths, whose claims only concern finite parses or rejection; the
averaging path must also track the `Infinity` literal and NaN
propagation, since `x || 0` coerces only falsy values (NaN, 0) and lets
±Infinity through. -/
inductive JsNum where
  | fin (q : ℚ)
  | posInf
  | negInf
  | nan
deriving DecidableEq

/-- Model of JavaScript `parseFloat` on the extended domain: skip
leading whitespace, read an optional sign, then either the `Infinity`
literal (giving ±Infinity) or a decimal-literal prefix (giving a finite
value), ignoring trailing characters; `nan` when no literal is found.
Exponent forms (and float overflow of very long digit strings) remain
outside the modelled fragment. -/
def parseFloatN (s : Str) : JsNum :=
  let s1 := s.dropWhile Char.isWhitespace
  let neg := s1.head? = some '-'
  let s2 := if s1.head? = some '-' ∨ s1.head? = some '+' then s1.tail else s1
  if s2.take 8 = "Infinity".data then (if neg then JsNum.negInf else JsNum.posInf)
  else
    let intDs := s2.takeWhile Char.isDigit
    let rest := s2.dropWhile Char.isDigit
    let fracDs := if rest.head? = some '.' then rest.tail.takeWhile Char.isDigit else []
    if intDs.isEmpty && fracDs.isEmpty then JsNum.nan
    else JsNum.fin (Rat.divInt ((if neg then -1 else (1 : ℤ)) * ((digitsToNat intDs * 10 ^ fracDs.length + digitsToNat fracDs : Nat) : ℤ)) ((10 ^ fracDs.length : Nat) : ℤ))

/-- Model of the JavaScript coercion `x || 0` on numbers: the falsy
values NaN and 0 become 0, everything else (±Infinity included) passes
through. -/
def jsOr0 : JsNum → JsNum
  | JsNum.nan => JsNum.fin 0
  | JsNum.fin q => JsNum.fin q
  | JsNum.posInf => JsNum.posInf
  | JsNum.negInf => JsNum.negInf

/-- IEEE-style addition on the extended domain: NaN is absorbing,
opposite infinities give NaN, an infinity absorbs finite values. -/
def jsAdd : JsNum → JsNum → JsNum
  | JsNum.nan, _ => JsNum.nan
  | _, JsNum.nan => JsNum.nan
  | JsNum.posInf, JsNum.negInf => JsNum.nan
  | JsNum.negInf, JsNum.posInf => JsNum.nan
  | JsNum.posInf, _ => JsNum.posInf
  | _, JsNum.posInf => JsNum.posInf
  | JsNum.negInf, _ => JsNum.negInf
  | _, JsNum.negInf => JsNum.negInf
  | JsNum.fin a, JsNum.fin b => JsNum.fin (a + b)

/-- IEEE-style division of an extended number by a natural count: NaN
propagates, an infinity divided by a finite count keeps its sign, a
finite value divided by a non-zero count is the exact quotient, and
division by zero follows JavaScript (0/0 is NaN, otherwise a signed
infinity). -/
def jsDivNat : JsNum → Nat → JsNum
  | JsNum.nan, _ => JsNum.nan
  | JsNum.posInf, _ => JsNum.posInf
  | JsNum.negInf, _ => JsNum.negInf
  | JsNum.fin q, n =>
    if n = 0 then (if q = 0 then JsNum.nan else if 0 < q then JsNum.posInf else JsNum.negInf)
    else JsNum.fin (q / (n : ℚ))

/-- Model of `Number.prototype.toFixed(2)` on the extended domain:
`(NaN).toFixed(2)` is "NaN" and `(±Infinity).toFixed(2)` is
"Infinity"/"-Infinity"; finite values render as in `toFixed2`. -/
def toFixed2N : JsNum → Str
  | JsNum.nan => "NaN".data
  | JsNum.posInf => "Infinity".data
  | JsNum.negInf => "-Infinity".data
  | JsNum.fin q => toFixed2 q

/-- Rational-level contribution of one item to the category sum: the
finite parse value, with NaN (no parse) contributing 0.  Meaningful
only when the price does not parse to ±Infinity. -/
def finContribution (it : MenuItem) : ℚ :=
  match parseFloatN it.price with
  | JsNum.fin q => q
  | _ => 0

/-- Model of the per-category body of `computeAverages` on the extended
number domain: an em-dash for an empty category, otherwise
`R` ++ `(sum / count).toFixed(2)` where each item contributes
`parseFloat(price) || 0`.  `computeAverages` above is the same source
function on the finite fragment; this refinement of the number domain
settles the NaN/Infinity behaviour of stored price strings. -/
def computeAveragesN (menuItems : List MenuItem) (cat : Str) : Str :=
  let items := menuItems.filter (fun i => i.category == cat)
  if items.length = 0 then emDash
  else
    let sum : JsNum := items.foldl (fun s it => jsAdd s (jsOr0 (parseFloatN it.price))) (JsNum.fin 0)
    'R' :: toFixed2N (jsDivNat sum items.length)

/-- A list whose `dropWhile` residue satisfies the predicate everywhere
has an empty residue. -/
lemma dropWhile_eq_nil_of_all {p : Char → Bool} :
    ∀ s : Str, (∀ x ∈ s.dropWhile p, p x = true) → s.dropWhile p = []
  | [], _ => rfl
  | a :: s, h => by
    rw [List.dropWhile_cons]
    by_cases ha : p a
    · rw [if_pos ha]
      refine dropWhile_eq_nil_of_all s fun x hx => h x ?_
      rw [List.dropWhile_cons, if_pos ha]
      exact hx
    · exfalso
      apply ha
      apply h
      rw [List.dropWhile_cons, if_neg ha]
      exact List.mem_cons_self a _

/-- If `dropWhile` consumes the whole list, the predicate held
everywhere. -/
lemma all_of_dropWhile_eq_nil {p : Char → Bool} :
    ∀ s : Str, s.dropWhile p = [] → ∀ x ∈ s, p x = true
  | [], _, x, hx => absurd hx (List.not_mem_nil x)
  | a :: s, h, x, hx => by
    rw [List.dropWhile_cons] at h
    by_cases ha : p a
    · rw [if_pos ha] at h
      rcases List.mem_cons.mp hx with rfl | hx'
      · exact ha
      · exact all_of_dropWhile_eq_nil s h x hx'
    · rw [if_neg ha] at h
      exact absurd h (List.cons_ne_nil a s)

/-- If the trimmed string is empty, the string was all whitespace. -/
lemma dropWhile_ws_of_trim_nil {s : Str} (h : trimChars s = []) :
    s.dropWhile Char.isWhitespace = [] := by
  unfold trimChars at h
  rw [List.reverse_eq_nil_iff] at h
  have hall := all_of_dropWhile_eq_nil _ h
  refine dropWhile_eq_nil_of_all _ fun x hx => ?_
  exact hall x (List.mem_reverse.mpr hx)

/-- A string on which `parseFloat` succeeds is not whitespace-only,
hence passes the missing-fields emptiness check. -/
lemma trim_isEmpty_false_of_parse {s : Str} {q : ℚ} (hq : parseFloat s = some q) :
    (trimChars s).isEmpty = false := by
  cases he : (trimChars s).isEmpty
  · rfl
  · exfalso
    have h1 : s.dropWhile Char.isWhitespace = [] :=
      dropWhile_ws_of_trim_nil (List.isEmpty_iff.mp he)
    simp [parseFloat, h1] at hq

/-- Unfolding of `addItem` when a field is empty after trimming. -/
lemma addItem_of_missing {st : AddMenuState} {category dishName description price : Str} {now : Nat}
    (h : ((trimChars dishName).isEmpty || (trimChars description).isEmpty || (trimChars price).isEmpty) = true) :
    addItem st category dishName description price now = { st with error := errMissing, success := [] } := by
  simp [addItem, h]

/-- Unfolding of `addItem` when the fields are present but the price
does not parse. -/
lemma addItem_of_none {st : AddMenuState} {category dishName description price : Str} {now : Nat}
    (hf : ((trimChars dishName).isEmpty || (trimChars description).isEmpty || (trimChars price).isEmpty) = false)
    (hp : parseFloat price = none) :
    addItem st category dishName description price now = { st with error := errInvalid, success := [] } := by
  simp [addItem, hf, hp]

/-- Unfolding of `addItem` when the fields are present but the price
parses negative. -/
lemma addItem_of_neg {st : AddMenuState} {category dishName description price : Str} {now : Nat} {q : ℚ}
    (hf : ((trimChars dishName).isEmpty || (trimChars description).isEmpty || (trimChars price).isEmpty) = false)
    (hq : parseFloat price = some q) (hneg : q < 0) :
    addItem st category dishName description price now = { st with error := errInvalid, success := [] } := by
  simp [addItem, hf, hq, hneg]

/-- Unfolding of `addItem` on valid input: the new item is appended and
the new collection is persisted. -/
lemma addItem_of_valid {st : AddMenuState} {category dishName description price : Str} {now : Nat} {q : ℚ}
    (hn : (trimChars dishName).isEmpty = false) (hd : (trimChars description).isEmpty = false)
    (hq : parseFloat price = some q) (h0 : 0 ≤ q) :
    addItem st category dishName description price now =
      { st with
        menuItems := st.menuItems ++ [⟨natToStr now, category, trimChars dishName, trimChars description, toFixed2 q⟩],
        storage := Blob.parsed (encodeItems (st.menuItems ++ [⟨natToStr now, category, trimChars dishName, trimChars description, toFixed2 q⟩])),
        error := [], success := successMsg } := by
  have hp := trim_isEmpty_false_of_parse hq
  simp [addItem, hn, hd, hp, hq, not_lt.mpr h0]

/-- Digit characters for values below ten are decimal digits. -/
lemma digitChar_isDigit {d : Nat} (h : d < 10) : (Nat.digitChar d).isDigit = true := by
  interval_cases d <;> decide

/-- A decimal digit character is not a minus sign. -/
lemma ne_minus_of_isDigit {c : Char} (h : c.isDigit = true) : c ≠ '-' := by
  intro he
  rw [he] at h
  exact absurd h (by decide)

/-- Every character produced by the digit renderer is a decimal digit. -/
lemma natDigitsRev_all_digits : ∀ fuel n : Nat, ∀ c ∈ natDigitsRev fuel n, c.isDigit = true
  | 0, n => by simp [natDigitsRev]
  | fuel + 1, n => by
    intro c hc
    simp only [natDigitsRev] at hc
    by_cases h : n < 10
    · rw [if_pos h] at hc
      rcases List.mem_singleton.mp hc with rfl
      exact digitChar_isDigit h
    · rw [if_neg h] at hc
      rcases List.mem_cons.mp hc with rfl | hc'
      · exact digitChar_isDigit (Nat.mod_lt n (by norm_num))
      · exact natDigitsRev_all_digits fuel (n / 10) c hc'

/-- With positive fuel the digit renderer yields at least one digit. -/
lemma natDigitsRev_ne_nil : ∀ fuel n : Nat, fuel ≠ 0 → natDigitsRev fuel n ≠ []
  | 0, _, h => absurd rfl h
  | fuel + 1, n, _ => by
    simp only [natDigitsRev]
    by_cases h : n < 10
    · rw [if_pos h]
      exact List.cons_ne_nil _ _
    · rw [if_neg h]
      exact List.cons_ne_nil _ _

/-- The decimal rendering of a natural number is non-empty. -/
lemma natToStr_ne_nil (n : Nat) : natToStr n ≠ [] := by
  unfold natToStr
  rw [Ne, List.reverse_eq_nil_iff]
  exact natDigitsRev_ne_nil _ _ (Nat.succ_ne_zero n)

/-- The decimal rendering of a natural number is all digits. -/
lemma natToStr_all_digits (n : Nat) : ∀ c ∈ natToStr n, c.isDigit = true := by
  intro c hc
  exact natDigitsRev_all_digits _ _ c (List.mem_reverse.mp hc)

/-- A non-empty digit string followed by a dot and two padded digits is
accepted by the two-decimal format core. -/
lemma twoDecCore_of_parts {u : Str} (hu : u ≠ []) (hd : ∀ c ∈ u, c.isDigit = true) (b : Nat) :
    twoDecCore (u ++ '.' :: pad2 b).reverse = true := by
  rw [List.reverse_append]
  have h3 : ('.' :: pad2 b).reverse = [Nat.digitChar (b % 10), Nat.digitChar (b / 10 % 10), '.'] := rfl
  rw [h3]
  show twoDecCore (Nat.digitChar (b % 10) :: Nat.digitChar (b / 10 % 10) :: '.' :: u.reverse) = true
  simp only [twoDecCore, Bool.and_eq_true, beq_self_eq_true, true_and]
  refine ⟨⟨⟨digitChar_isDigit (Nat.mod_lt _ (by norm_num)), digitChar_isDigit (Nat.mod_lt _ (by norm_num))⟩, ?_⟩, ?_⟩
  · simp [List.isEmpty_iff, hu]
  · rw [List.all_eq_true]
    intro c hc
    exact hd c (List.mem_reverse.mp hc)

/-- Every string produced by `toFixed2` is in two-decimal format. -/
lemma isTwoDecFormat_toFixed2 (q : ℚ) : isTwoDecFormat (toFixed2 q) = true := by
  by_cases hq : q < 0
  · rw [toFixed2, if_pos hq, isTwoDecFormat]
    show twoDecCore (stripMinus ('-' :: (natToStr (round100 q / 100) ++ '.' :: pad2 (round100 q % 100)))).reverse = true
    rw [stripMinus, if_pos rfl]
    exact twoDecCore_of_parts (natToStr_ne_nil _) (natToStr_all_digits _) _
  · rw [toFixed2, if_neg hq, isTwoDecFormat, List.nil_append]
    obtain ⟨c, cs, hc⟩ := List.exists_cons_of_ne_nil (natToStr_ne_nil (round100 q / 100))
    have hcd : c.isDigit = true := natToStr_all_digits _ c (hc ▸ List.mem_cons_self c cs)
    rw [hc, List.cons_append, stripMinus, if_neg (ne_minus_of_isDigit hcd), ← List.cons_append, ← hc]
    exact twoDecCore_of_parts (natToStr_ne_nil _) (natToStr_all_digits _) _

/-- The specification-side decoder inverts the item encoder. -/
lemma itemOfJson_encodeItem (it : MenuItem) : itemOfJson (encodeItem it) = some it := by
  simp [itemOfJson, encodeItem]

/-- The specification-side decoder inverts the collection encoder. -/
lemma itemsOfJsonList_encode : ∀ l : List MenuItem, itemsOfJsonList (l.map encodeItem) = some l
  | [] => rfl
  | it :: l => by
    simp only [List.map_cons, itemsOfJsonList, itemOfJson_encodeItem, itemsOfJsonList_encode l]

/-- Filtering by the same id twice equals filtering once. -/
lemma filter_bne_idem (l : List MenuItem) (id : Str) :
    (l.filter (fun it => it.id != id)).filter (fun it => it.id != id) = l.filter (fun it => it.id != id) :=
  List.filter_eq_self.mpr fun _ ha => (List.mem_filter.mp ha).2

/-- When no price in the list parses to an infinity, the extended-domain
sum stays finite and equals the rational sum of the coerced
contributions. -/
lemma foldl_jsAdd_fin :
    ∀ (l : List MenuItem) (a : ℚ),
    (∀ it ∈ l, parseFloatN it.price ≠ JsNum.posInf ∧ parseFloatN it.price ≠ JsNum.negInf) →
    l.foldl (fun s it => jsAdd s (jsOr0 (parseFloatN it.price))) (JsNum.fin a) =
      JsNum.fin (l.foldl (fun s it => s + finContribution it) a)
  | [], _, _ => rfl
  | it :: l, a, h => by
    have hit := h it (List.mem_cons_self it l)
    have hstep : jsAdd (JsNum.fin a) (jsOr0 (parseFloatN it.price)) = JsNum.fin (a + finContribution it) := by
      cases hp : parseFloatN it.price with
      | fin q => simp [jsOr0, jsAdd, finContribution, hp]
      | posInf => exact absurd hp hit.1
      | negInf => exact absurd hp hit.2
      | nan => simp [jsOr0, jsAdd, finContribution, hp]
    rw [List.foldl_cons, List.foldl_cons, hstep]
    exact foldl_jsAdd_fin l (a + finContribution it) fun x hx => h x (List.mem_cons_of_mem it hx)

/-- C1 (amended): for every input where dishName and description are
non-empty after trimming and rawPrice parses to a non-negative number,
`addItem` succeeds and appends exactly one item to the end of the
collection, with the trimmed inputs as dishName and description, the
parsed value formatted to two decimals as price, the given category, and
the current-timestamp string as id; `itemsByCategory` of the given
category subsequently includes it.  The id is unique across the
collection only under the extra hypothesis that the generated timestamp
string differs from every existing id — the code does not enforce
this. -/
theorem addItem_valid_appends (st : AddMenuState) (category dishName description price : Str) (now : Nat) (q : ℚ)
    (hn : (trimChars dishName).isEmpty = false) (hd : (trimChars description).isEmpty = false)
    (hq : parseFloat price = some q) (h0 : 0 ≤ q)
    (hid : natToStr now ∉ st.menuItems.map MenuItem.id) :
    ∃ it : MenuItem,
      (addItem st category dishName description price now).menuItems = st.menuItems ++ [it] ∧
      it.dishName = trimChars dishName ∧ it.description = trimChars description ∧
      it.price = toFixed2 q ∧ it.category = category ∧ it.id = natToStr now ∧
      (∀ old ∈ st.menuItems, old.id ≠ it.id) ∧
      it ∈ filteredItems (addItem st category dishName description price now).menuItems category := by
  refine ⟨⟨natToStr now, category, trimChars dishName, trimChars description, toFixed2 q⟩,
    ?_, rfl, rfl, rfl, rfl, rfl, ?_, ?_⟩
  · rw [addItem_of_valid hn hd hq h0]
  · intro old hold heq
    have hmem : old.id ∈ st.menuItems.map MenuItem.id := List.mem_map_of_mem MenuItem.id hold
    rw [heq] at hmem
    exact hid hmem
  · rw [addItem_of_valid hn hd hq h0]
    simp [filteredItems, List.mem_filter]

/-- C1 witness: a concrete valid add on the empty store. -/
theorem addItem_valid_appends_witness :
    ∃ it : MenuItem,
      (addItem initState "Main".data "Steak".data "Grilled".data "120".data 3).menuItems = initState.menuItems ++ [it] ∧
      it.dishName = trimChars "Steak".data ∧ it.description = trimChars "Grilled".data ∧
      it.price = toFixed2 120 ∧ it.category = "Main".data ∧ it.id = natToStr 3 ∧
      (∀ old ∈ initState.menuItems, old.id ≠ it.id) ∧
      it ∈ filteredItems (addItem initState "Main".data "Steak".data "Grilled".data "120".data 3).menuItems "Main".data :=
  addItem_valid_appends initState "Main".data "Steak".data "Grilled".data "120".data 3 120
    (by decide) (by decide) (by decide) (by decide) (by decide)

/-- C1 counterexample: two valid adds in the same millisecond produce
two items with the same id, so a freshly generated id is not always
distinct from every existing item's id. -/
theorem addItem_duplicate_id_counterexample :
    ((addItem (addItem initState "Main".data "Steak".data "Grilled".data "120".data 7) "Main".data "Soup".data "Hot soup".data "30".data 7).menuItems.map MenuItem.id) = [['7'], ['7']] ∧
    ¬ ((addItem (addItem initState "Main".data "Steak".data "Grilled".data "120".data 7) "Main".data "Soup".data "Hot soup".data "30".data 7).menuItems.map MenuItem.id).Nodup := by
  with_unfolding_all decide

/-- C2: `addItem` checks validation in a fixed order and reports one
error per failed call: any empty-after-trimming field gives the
missing-fields message; otherwise an unparsable or negative price gives
the invalid-price message; the two messages are distinct. -/
theorem addItem_validation_order (st : AddMenuState) (category dishName description price : Str) (now : Nat) :
    (((trimChars dishName).isEmpty || (trimChars description).isEmpty || (trimChars price).isEmpty) = true →
      (addItem st category dishName description price now).error = errMissing ∧
      (addItem st category dishName description price now).success = []) ∧
    (((trimChars dishName).isEmpty || (trimChars description).isEmpty || (trimChars price).isEmpty) = false →
      (parseFloat price = none ∨ ∃ q, parseFloat price = some q ∧ q < 0) →
      (addItem st category dishName description price now).error = errInvalid ∧
      (addItem st category dishName description price now).success = []) ∧
    errMissing ≠ errInvalid := by
  refine ⟨fun h => ?_, fun hf hbad => ?_, by decide⟩
  · rw [addItem_of_missing h]
    exact ⟨rfl, rfl⟩
  · rcases hbad with hp | ⟨q, hq, hneg⟩
    · rw [addItem_of_none hf hp]
      exact ⟨rfl, rfl⟩
    · rw [addItem_of_neg hf hq hneg]
      exact ⟨rfl, rfl⟩

/-- C2 witness: rawPrice "-5" with the other fields present yields the
invalid-price error. -/
theorem addItem_validation_order_witness :
    (addItem initState "Main".data "Steak".data "Grilled".data "-5".data 0).error = errInvalid ∧
    (addItem initState "Main".data "Steak".data "Grilled".data "-5".data 0).success = [] :=
  (addItem_validation_order initState "Main".data "Steak".data "Grilled".data "-5".data 0).2.1
    (by decide) (Or.inr ⟨-5, by decide, by decide⟩)

/-- C3: every input rejected by validation leaves the collection and the
persisted blob unchanged and signals one of the two validation
errors. -/
theorem addItem_failure_preserves (st : AddMenuState) (category dishName description price : Str) (now : Nat)
    (h : ((trimChars dishName).isEmpty || (trimChars description).isEmpty || (trimChars price).isEmpty) = true ∨
      (((trimChars dishName).isEmpty || (trimChars description).isEmpty || (trimChars price).isEmpty) = false ∧
        (parseFloat price = none ∨ ∃ q, parseFloat price = some q ∧ q < 0))) :
    (addItem st category dishName description price now).menuItems = st.menuItems ∧
    (addItem st category dishName description price now).storage = st.storage ∧
    ((addItem st category dishName description price now).error = errMissing ∨
      (addItem st category dishName description price now).error = errInvalid) := by
  rcases h with h | ⟨hf, hp | ⟨q, hq, hneg⟩⟩
  · rw [addItem_of_missing h]
    exact ⟨rfl, rfl, Or.inl rfl⟩
  · rw [addItem_of_none hf hp]
    exact ⟨rfl, rfl, Or.inr rfl⟩
  · rw [addItem_of_neg hf hq hneg]
    exact ⟨rfl, rfl, Or.inr rfl⟩

/-- C3 witness: an empty dish name is rejected and changes neither the
collection nor the blob. -/
theorem addItem_failure_preserves_witness :
    (addItem initState "Main".data "  ".data "Grilled".data "5".data 0).menuItems = initState.menuItems ∧
    (addItem initState "Main".data "  ".data "Grilled".data "5".data 0).storage = initState.storage ∧
    ((addItem initState "Main".data "  ".data "Grilled".data "5".data 0).error = errMissing ∨
      (addItem initState "Main".data "  ".data "Grilled".data "5".data 0).error = errInvalid) :=
  addItem_failure_preserves initState "Main".data "  ".data "Grilled".data "5".data 0 (Or.inl (by decide))

/-- C4 counterexample: after adding a Main item with price "120" and a
Main item with price "30", the average-price read returns "R75.00" (the
currency symbol is part of the returned text), not "75.00" as
claimed. -/
theorem averagePrice_literal_counterexample :
    computeAverages (addItem (addItem initState "Main".data "Steak".data "Grilled".data "120".data 1) "Main".data "Soup".data "Hot soup".data "30".data 2).menuItems "Main".data = "R75.00".data ∧
    "R75.00".data ≠ ("75.00".data : Str) := by
  constructor
  · with_unfolding_all decide
  · decide

/-- C4 (amended): the average-price read is pure; an empty category
returns the em-dash sentinel (distinct from a rendered zero) and no
division by zero is performed; a non-empty category returns "R" followed
by the arithmetic mean of the category's prices rendered to two
decimals; in the end-to-end scenario the Main average is "R75.00" after
the two adds and "R30.00" after removing the steak item, whose stored
price was "120.00". -/
theorem averagePriceByCategory_spec :
    (∀ (menuItems : List MenuItem) (cat : Str),
      (menuItems.filter (fun i => i.category == cat)).length = 0 →
      computeAverages menuItems cat = emDash) ∧
    emDash ≠ 'R' :: toFixed2 0 ∧
    (∀ (menuItems : List MenuItem) (cat : Str),
      (menuItems.filter (fun i => i.category == cat)).length ≠ 0 →
      computeAverages menuItems cat =
        'R' :: toFixed2 (((menuItems.filter (fun i => i.category == cat)).foldl (fun s it => s + ((parseFloat it.price).getD 0)) 0) / ((menuItems.filter (fun i => i.category == cat)).length : ℚ))) ∧
    (addItem initState "Main".data "Steak".data "Grilled".data "120".data 1).menuItems = [⟨['1'], "Main".data, "Steak".data, "Grilled".data, "120.00".data⟩] ∧
    computeAverages (addItem (addItem initState "Main".data "Steak".data "Grilled".data "120".data 1) "Main".data "Soup".data "Hot soup".data "30".data 2).menuItems "Main".data = "R75.00".data ∧
    computeAverages (removeItem (addItem (addItem initState "Main".data "Steak".data "Grilled".data "120".data 1) "Main".data "Soup".data "Hot soup".data "30".data 2) ['1']).menuItems "Main".data = "R30.00".data := by
  refine ⟨?_, by decide, ?_, ?_, ?_, ?_⟩
  · intro menuItems cat h0
    simp only [computeAverages]
    rw [if_pos h0]
  · intro menuItems cat h0
    simp only [computeAverages]
    rw [if_neg h0]
  · with_unfolding_all decide
  · with_unfolding_all decide
  · with_unfolding_all decide

/-- C4 witness: the empty collection has no Main items and yields the
sentinel. -/
theorem averagePriceByCategory_spec_witness :
    computeAverages [] "Main".data = emDash :=
  averagePriceByCategory_spec.1 [] "Main".data rfl

/-- C5 counterexample: a persisted blob that parses to the JSON number
42 does not match the expected item-array shape, yet `initialize`
installs it verbatim instead of falling back to the empty collection:
the loaded value is not the empty collection and does not even decode as
a collection. -/
theorem initialize_shape_mismatch_counterexample :
    loadItems (Blob.parsed (Json.num 42)) jsonInit = Json.num 42 ∧
    Json.num 42 ≠ jsonInit ∧
    decodeItems (Json.num 42) = none := by
  refine ⟨rfl, ?_, rfl⟩
  intro h
  exact Json.noConfusion h

/-- C5 (amended): an absent or unparsable persisted blob leaves the
collection empty and never raises a fatal error, but a parsable blob is
installed verbatim with no shape validation, so a shape-mismatched
parsable blob is not treated like absent data. -/
theorem initialize_fallback (j : Json) :
    loadItems Blob.absent jsonInit = jsonInit ∧
    loadItems Blob.malformed jsonInit = jsonInit ∧
    decodeItems jsonInit = some [] ∧
    loadItems (Blob.parsed j) jsonInit = j :=
  ⟨rfl, rfl, rfl, rfl⟩

/-- C6: removing an id not present in the collection leaves the
collection unchanged item-for-item, signals no error, and removal is
idempotent on the whole screen state. -/
theorem removeItem_nonexistent_noop (st : AddMenuState) (id : Str)
    (h : ∀ it ∈ st.menuItems, it.id ≠ id) :
    (removeItem st id).menuItems = st.menuItems ∧
    (removeItem st id).error = st.error ∧
    (removeItem st id).success = st.success ∧
    removeItem (removeItem st id) id = removeItem st id := by
  have hf : st.menuItems.filter (fun it => it.id != id) = st.menuItems :=
    List.filter_eq_self.mpr fun a ha => bne_iff_ne.mpr (h a ha)
  refine ⟨hf, rfl, rfl, ?_⟩
  simp only [removeItem, filter_bne_idem]

/-- C6 witness: removing id "9" from a one-item collection with id "7"
changes nothing. -/
theorem removeItem_nonexistent_noop_witness :
    (removeItem ⟨[⟨['7'], "Main".data, ['x'], ['y'], "5.00".data⟩], [], [], Blob.absent⟩ ['9']).menuItems = [⟨['7'], "Main".data, ['x'], ['y'], "5.00".data⟩] ∧
    (removeItem ⟨[⟨['7'], "Main".data, ['x'], ['y'], "5.00".data⟩], [], [], Blob.absent⟩ ['9']).error = [] ∧
    (removeItem ⟨[⟨['7'], "Main".data, ['x'], ['y'], "5.00".data⟩], [], [], Blob.absent⟩ ['9']).success = [] ∧
    removeItem (removeItem ⟨[⟨['7'], "Main".data, ['x'], ['y'], "5.00".data⟩], [], [], Blob.absent⟩ ['9']) ['9'] = removeItem ⟨[⟨['7'], "Main".data, ['x'], ['y'], "5.00".data⟩], [], [], Blob.absent⟩ ['9'] :=
  removeItem_nonexistent_noop ⟨[⟨['7'], "Main".data, ['x'], ['y'], "5.00".data⟩], [], [], Blob.absent⟩ ['9'] (by decide)

/-- C7: persisting a collection and reloading the stored blob on a
fresh store yields the same collection: the loaded value is exactly the
serialized array, and it decodes to the original items with identical
fields in identical order. -/
theorem persist_roundtrip (items : List MenuItem) :
    loadItems (saveBlob items) jsonInit = encodeItems items ∧
    decodeItems (encodeItems items) = some items := by
  refine ⟨rfl, ?_⟩
  simp only [encodeItems, decodeItems]
  exact itemsOfJsonList_encode items

/-- C8: insertion order is preserved by every operation: a successful
`addItem` appends at the end, `removeItem` yields a sublist of the
collection (survivors keep their relative order), and the category read
returns a sublist of the collection containing exactly the matching
items. -/
theorem insertion_order_invariant :
    (∀ (st : AddMenuState) (category dishName description price : Str) (now : Nat) (q : ℚ),
      (trimChars dishName).isEmpty = false → (trimChars description).isEmpty = false →
      parseFloat price = some q → 0 ≤ q →
      (addItem st category dishName description price now).menuItems =
        st.menuItems ++ [⟨natToStr now, category, trimChars dishName, trimChars description, toFixed2 q⟩]) ∧
    (∀ (st : AddMenuState) (id : Str), List.Sublist (removeItem st id).menuItems st.menuItems) ∧
    (∀ (menuItems : List MenuItem) (category : Str),
      List.Sublist (filteredItems menuItems category) menuItems ∧
      ∀ x : MenuItem, x ∈ filteredItems menuItems category ↔ x ∈ menuItems ∧ x.category = category) := by
  refine ⟨?_, ?_, ?_⟩
  · intro st category dishName description price now q hn hd hq h0
    rw [addItem_of_valid hn hd hq h0]
  · intro st id
    exact List.filter_sublist st.menuItems
  · intro menuItems category
    refine ⟨List.filter_sublist menuItems, fun x => ?_⟩
    simp [filteredItems, List.mem_filter]

/-- C8 witness: a concrete valid add appends at the end. -/
theorem insertion_order_invariant_witness :
    (addItem initState "Main".data "Steak".data "Grilled".data "120".data 3).menuItems =
      initState.menuItems ++ [⟨natToStr 3, "Main".data, trimChars "Steak".data, trimChars "Grilled".data, toFixed2 120⟩] :=
  insertion_order_invariant.1 initState "Main".data "Steak".data "Grilled".data "120".data 3 120
    (by decide) (by decide) (by decide) (by decide)

/-- C9: `removeItem` removes every item whose id equals the argument,
not only the first match: membership in the result is membership in the
original with a different id, and a concrete collection with two items
sharing id "7" becomes empty after one `removeItem` call. -/
theorem removeItem_removes_all_matches :
    (∀ (st : AddMenuState) (id : Str) (x : MenuItem),
      x ∈ (removeItem st id).menuItems ↔ x ∈ st.menuItems ∧ x.id ≠ id) ∧
    (removeItem ⟨[⟨['7'], "Main".data, ['a'], ['b'], "1.00".data⟩, ⟨['7'], "Main".data, ['c'], ['d'], "2.00".data⟩], [], [], Blob.absent⟩ ['7']).menuItems = [] := by
  constructor
  · intro st id x
    show x ∈ st.menuItems.filter (fun it => it.id != id) ↔ _
    rw [List.mem_filter]
    simp [bne_iff_ne]
  · decide

/-- C10 counterexample: a stored price string "Infinity" parses to
Infinity, which is truthy and so not coerced by `|| 0`: a Main category
holding such an item averages to "RInfinity", which is not in
two-decimal format, and holding both "Infinity" and "-Infinity" items
averages to "RNaN" — the average is neither always finite nor never
NaN. -/
theorem average_infinity_counterexample :
    computeAveragesN [⟨['1'], "Main".data, ['x'], ['y'], "Infinity".data⟩] "Main".data = "RInfinity".data ∧
    isTwoDecFormat (List.tail (computeAveragesN [⟨['1'], "Main".data, ['x'], ['y'], "Infinity".data⟩] "Main".data)) = false ∧
    computeAveragesN [⟨['1'], "Main".data, ['x'], ['y'], "Infinity".data⟩, ⟨['2'], "Main".data, ['x'], ['y'], "-Infinity".data⟩] "Main".data = "RNaN".data := by
  with_unfolding_all decide

/-- C10 (amended): for every non-empty category none of whose stored
price strings parses to positive or negative Infinity, the average is a
well-formed finite number: the result is "R" followed by the mean of
the per-item contributions (an unparsable stored price contributing 0
through the `|| 0` coercion of NaN) rendered with a sign, digits, a dot
and exactly two decimal digits.  A stored price parsing to ±Infinity is
truthy, escapes the coercion, and propagates to an "RInfinity",
"R-Infinity" or "RNaN" result. -/
theorem average_no_infinite_two_decimals (menuItems : List MenuItem) (cat : Str)
    (h : (menuItems.filter (fun i => i.category == cat)).length ≠ 0)
    (hfin : ∀ it ∈ menuItems.filter (fun i => i.category == cat),
      parseFloatN it.price ≠ JsNum.posInf ∧ parseFloatN it.price ≠ JsNum.negInf) :
    computeAveragesN menuItems cat =
      'R' :: toFixed2 (((menuItems.filter (fun i => i.category == cat)).foldl (fun s it => s + finContribution it) 0) / ((menuItems.filter (fun i => i.category == cat)).length : ℚ)) ∧
    isTwoDecFormat (List.tail (computeAveragesN menuItems cat)) = true := by
  have hsum := foldl_jsAdd_fin (menuItems.filter (fun i => i.category == cat)) 0 hfin
  have he : computeAveragesN menuItems cat =
      'R' :: toFixed2 (((menuItems.filter (fun i => i.category == cat)).foldl (fun s it => s + finContribution it) 0) / ((menuItems.filter (fun i => i.category == cat)).length : ℚ)) := by
    simp only [computeAveragesN]
    rw [if_neg h, hsum, jsDivNat, if_neg h]
    rfl
  refine ⟨he, ?_⟩
  rw [he]
  exact isTwoDecFormat_toFixed2 _

/-- C10 witness: a Main item whose stored price is "abc" parses to NaN,
is coerced to 0, and the category average is in two-decimal format (it
evaluates to "R0.00"). -/
theorem average_no_infinite_two_decimals_witness :
    isTwoDecFormat (List.tail (computeAveragesN [⟨['1'], "Main".data, ['x'], ['y'], "abc".data⟩] "Main".data)) = true ∧
    computeAveragesN [⟨['1'], "Main".data, ['x'], ['y'], "abc".data⟩] "Main".data = "R0.00".data := by
  constructor
  · exact (average_no_infinite_two_decimals [⟨['1'], "Main".data, ['x'], ['y'], "abc".data⟩] "Main".data (by decide) (by decide)).2
  · with_unfolding_all decide

end MenuStore
